import Mathlib

/-!
Verification of the trigger-decision engine of the sfizz sample-playback
synthesizer (files `src/sfizz/Layer.cpp` and `tests/MidiStateT.cpp`).

The embedding below models float values as rationals (the code performs only
order comparisons on the values the verified properties touch), note numbers
as integers, and the C++ containers as Lean lists and functions.  Members
declared in headers that are not part of the provided sources (`Range.h`,
`MidiState.h`, `Layer.h`, `Region.h`, `utility/SwapAndPop.h`) are modelled
from the specification, and are marked as such in their doc comments.
-/

namespace Sfizz

/-- Modelled from the spec: the value range type of `Range.h` (not in the
provided sources).  `contains` is inclusive of the start and exclusive of the
end (the spec's random-boundary rule presupposes that a plain containment
check does not match the end), `containsWithEnd` is inclusive of both ends,
and `isValid` means the start does not exceed the end. -/
structure SRange (α : Type) where
  start : α
  stop : α
deriving DecidableEq

def SRange.contains {α : Type} [LinearOrder α] (r : SRange α) (v : α) : Bool :=
  decide (r.start ≤ v) && decide (v < r.stop)

def SRange.containsWithEnd {α : Type} [LinearOrder α] (r : SRange α) (v : α) : Bool :=
  decide (r.start ≤ v) && decide (v ≤ r.stop)

def SRange.isValid {α : Type} [LinearOrder α] (r : SRange α) : Bool :=
  decide (r.start ≤ r.stop)

def SRange.getEnd {α : Type} (r : SRange α) : α :=
  r.stop

/-- Trigger modes of a region (`Trigger` enum): on-attack, on-release with
pedal awareness, on-release with key, first note of a legato group, and
non-first note of a legato group. -/
inductive Trigger where
  | attack
  | release
  | release_key
  | first
  | legato
deriving DecidableEq

/-- Velocity-override policy (`VelocityOverride` enum): use the event's own
velocity, or the most recent note-on velocity from the controller memory. -/
inductive VelocityOverride where
  | current
  | previous
deriving DecidableEq

/-- Modelled from the spec: the number of controllers in the supported table
of the controller memory (`config::numCCs`, configuration header not in the
provided sources). -/
def numCCs : ℕ := 512

/-- Modelled from the spec: the capacity of each deferred-release queue
equals the maximum representable note count (`Layer.h` sizing not in the
provided sources). -/
def queueCapacity : ℕ := 128

/-- Modelled from the spec: the controller memory (`MidiState`, whose own
sources are not provided; only its tests are).  It stores per-note last-known
velocity, per-note pressed flag, per-note polyphonic aftertouch, the count of
active notes, the most recent note-on velocity, the per-controller value
table and the pitch bend. -/
structure MidiState where
  noteVelocity : ℤ → ℚ
  notePressed : ℤ → Bool
  polyAftertouch : ℤ → ℚ
  activeNotes : ℕ
  velocityOverride : ℚ
  ccValue : ℕ → ℚ
  pitchBend : ℚ

def MidiState.getNoteVelocity (m : MidiState) (noteNumber : ℤ) : ℚ :=
  m.noteVelocity noteNumber

def MidiState.isNotePressed (m : MidiState) (noteNumber : ℤ) : Bool :=
  m.notePressed noteNumber

def MidiState.getPolyAftertouch (m : MidiState) (noteNumber : ℤ) : ℚ :=
  m.polyAftertouch noteNumber

def MidiState.getActiveNotes (m : MidiState) : ℕ :=
  m.activeNotes

def MidiState.getVelocityOverride (m : MidiState) : ℚ :=
  m.velocityOverride

def MidiState.getCCValue (m : MidiState) (ccNumber : ℕ) : ℚ :=
  m.ccValue ccNumber

/-- Modelled from the spec: `controllerChange(number, value)` stores the
normalized value at `number` when `number` is within the supported table;
otherwise the call is a no-op and must never fault. -/
def MidiState.controllerChange (m : MidiState) (number : ℕ) (value : ℚ) : MidiState :=
  if number < numCCs then
    { m with ccValue := fun n => if n = number then value else m.ccValue n }
  else
    m

/-- Static configuration of a layer (`Region`, header not in the provided
sources; the fields are those read by `Layer.cpp`, typed per the spec's data
model). -/
structure Region where
  keyRange : SRange ℤ
  velocityRange : SRange ℚ
  randRange : SRange ℚ
  polyAftertouchRange : SRange ℚ
  bendRange : SRange ℚ
  aftertouchRange : SRange ℚ
  bpmRange : SRange ℚ
  sequenceLength : ℕ
  sequencePosition : ℕ
  trigger : Trigger
  velocityOverride : VelocityOverride
  triggerOnNote : Bool
  triggerOnCC : Bool
  usesKeySwitches : Bool
  usesPreviousKeySwitches : Bool
  usesSequenceSwitches : Bool
  sustainCC : ℕ
  sostenutoCC : ℕ
  checkSustain : Bool
  checkSostenuto : Bool
  sustainThreshold : ℚ
  sostenutoThreshold : ℚ
  ccConditions : ℕ → SRange ℚ
  ccTriggers : ℕ → Option (SRange ℚ)

/-- Mutable runtime state of a layer (members of `Layer`, declared in the
header that is not in the provided sources; the fields are exactly those
mutated by `Layer.cpp`, per the spec's data model). -/
structure LayerState where
  keySwitched : Bool
  previousKeySwitched : Bool
  sequenceSwitched : Bool
  pitchSwitched : Bool
  bpmSwitched : Bool
  aftertouchSwitched : Bool
  ccSwitched : ℕ → Bool
  sequenceCounter : ℕ
  sustainPressed : Bool
  sostenutoPressed : Bool
  delayedSustainReleases : List (ℤ × ℚ)
  delayedSostenutoReleases : List (ℤ × ℚ)

/-- Embedding of `Layer::initializeActivations`. -/
def initializeActivations (r : Region) (s : LayerState) : LayerState :=
  { s with
    keySwitched := !r.usesKeySwitches
    previousKeySwitched := !r.usesPreviousKeySwitches
    sequenceSwitched := !r.usesSequenceSwitches
    pitchSwitched := true
    bpmSwitched := true
    aftertouchSwitched := true
    ccSwitched := fun _ => true }

/-- Boolean test that every bit of the controller-gate set is true
(`ccSwitched_.all()`). -/
def ccAll (f : ℕ → Bool) : Bool :=
  (List.range numCCs).all f

/-- Embedding of `Layer::isSwitchedOn`. -/
def isSwitchedOn (s : LayerState) : Bool :=
  s.keySwitched && s.previousKeySwitched && s.sequenceSwitched && s.pitchSwitched
    && s.bpmSwitched && s.aftertouchSwitched && ccAll s.ccSwitched

/-- Embedding of `Layer::walkSequence`: the post-increment means the gate is
computed from the counter value before the increment. -/
def walkSequence (r : Region) (s : LayerState) : LayerState :=
  { s with
    sequenceSwitched := decide (s.sequenceCounter % r.sequenceLength = r.sequencePosition - 1)
    sequenceCounter := s.sequenceCounter + 1 }

/-- Embedding of `Layer::checkRandom`. -/
def checkRandom (r : Region) (randValue : ℚ) : Bool :=
  r.randRange.contains randValue
    || (decide (randValue ≥ 1) && r.randRange.isValid && decide (r.randRange.getEnd ≥ 1))

/-- Embedding of `Layer::checkNote`. -/
def checkNote (r : Region) (noteNumber : ℤ) (velocity : ℚ) : Bool :=
  r.keyRange.containsWithEnd noteNumber && r.velocityRange.containsWithEnd velocity

/-- The three trigger-category tests of `Layer::registerNoteOn`:
`firstLegatoNote`. -/
def firstLegatoNote (r : Region) (m : MidiState) : Bool :=
  decide (r.trigger = Trigger.first) && decide (m.getActiveNotes = 1)

/-- The three trigger-category tests of `Layer::registerNoteOn`:
`attackTrigger`. -/
def attackTrigger (r : Region) : Bool :=
  decide (r.trigger = Trigger.attack)

/-- The three trigger-category tests of `Layer::registerNoteOn`:
`notFirstLegatoNote`. -/
def notFirstLegatoNote (r : Region) (m : MidiState) : Bool :=
  decide (r.trigger = Trigger.legato) && decide (m.getActiveNotes > 1)

/-- Helper: the velocity actually used by the note on/off decisions after the
velocity-override substitution at the top of `Layer::registerNoteOn` and
`Layer::registerNoteOff`. -/
def effectiveVelocity (r : Region) (m : MidiState) (velocity : ℚ) : ℚ :=
  if r.velocityOverride = VelocityOverride.previous then m.getVelocityOverride else velocity

/-- Embedding of `Layer::registerNoteOn`; returns the new layer state paired
with the fire/no-fire decision. -/
def registerNoteOn (r : Region) (m : MidiState) (s : LayerState)
    (noteNumber : ℤ) (velocity : ℚ) (randValue : ℚ) : LayerState × Bool :=
  let velocity := effectiveVelocity r m velocity
  if !(r.triggerOnNote && checkNote r noteNumber velocity && checkRandom r randValue) then
    (s, false)
  else
    let polyAftertouchActive := r.polyAftertouchRange.containsWithEnd (m.getPolyAftertouch noteNumber)
    if !polyAftertouchActive then
      (s, false)
    else
      if attackTrigger r || firstLegatoNote r m || notFirstLegatoNote r m then
        let s := walkSequence r s
        (s, isSwitchedOn s)
      else
        (s, false)

/-- Embedding of `Layer::delaySustainRelease`: an insertion into a full queue
is silently dropped. -/
def delaySustainRelease (s : LayerState) (noteNumber : ℤ) (velocity : ℚ) : LayerState :=
  if s.delayedSustainReleases.length = queueCapacity then
    s
  else
    { s with delayedSustainReleases := s.delayedSustainReleases ++ [(noteNumber, velocity)] }

/-- Embedding of `Layer::delaySostenutoRelease`: an insertion into a full
queue is silently dropped. -/
def delaySostenutoRelease (s : LayerState) (noteNumber : ℤ) (velocity : ℚ) : LayerState :=
  if s.delayedSostenutoReleases.length = queueCapacity then
    s
  else
    { s with delayedSostenutoReleases := s.delayedSostenutoReleases ++ [(noteNumber, velocity)] }

/-- Modelled from the spec: `swapAndPopFirst` of `utility/SwapAndPop.h` (not
in the provided sources) removes the first element satisfying the predicate
by overwriting it with the container's last element and shrinking the
container by one ("swap the removed element with the last, shrink count"). -/
def swapAndPopFirst {α : Type} (l : List α) (p : α → Bool) : List α :=
  match l with
  | [] => []
  | x :: xs =>
    if p x then
      match xs.getLast? with
      | Option.none => []
      | Option.some last => last :: xs.dropLast
    else
      x :: swapAndPopFirst xs p

/-- Embedding of `Layer::removeFromSostenutoReleases`. -/
def removeFromSostenutoReleases (s : LayerState) (noteNumber : ℤ) : LayerState :=
  { s with delayedSostenutoReleases :=
      swapAndPopFirst s.delayedSostenutoReleases (fun p => decide (p.1 = noteNumber)) }

/-- Embedding of `Layer::isNoteSustained`. -/
def isNoteSustained (s : LayerState) (noteNumber : ℤ) : Bool :=
  s.delayedSustainReleases.any (fun p => decide (p.1 = noteNumber))

/-- Embedding of `Layer::isNoteSostenutoed`. -/
def isNoteSostenutoed (s : LayerState) (noteNumber : ℤ) : Bool :=
  s.delayedSostenutoReleases.any (fun p => decide (p.1 = noteNumber))

/-- The notes visited by the loop of `Layer::storeSostenutoNotes`: every note
from the start of the key range to its end, inclusive. -/
def keyRangeNotes (r : Region) : List ℤ :=
  (List.range (r.keyRange.getEnd + 1 - r.keyRange.start).toNat).map
    (fun i => r.keyRange.start + (i : ℤ))

/-- Embedding of `Layer::storeSostenutoNotes`: every currently pressed note
of the key range is appended (with its last recorded velocity) to the
sostenuto-deferred queue. -/
def storeSostenutoNotes (r : Region) (m : MidiState) (s : LayerState) : LayerState :=
  (keyRangeNotes r).foldl
    (fun st note =>
      if m.isNotePressed note then
        delaySostenutoRelease st note (m.getNoteVelocity note)
      else
        st)
    s

/-- Release logic of `Layer::registerNoteOff` (the part after the
prerequisite checks, computing `triggerOk` and its side effects on the
deferred queues). -/
def releaseLogic (r : Region) (m : MidiState) (s : LayerState) (noteNumber : ℤ) :
    LayerState × Bool :=
  if r.trigger = Trigger.release_key then
    (s, true)
  else if r.trigger = Trigger.release then
    let sostenutoed := isNoteSostenutoed s noteNumber
    let s1 :=
      if sostenutoed && !s.sostenutoPressed then
        let s2 := removeFromSostenutoReleases s noteNumber
        if s2.sustainPressed then
          delaySustainRelease s2 noteNumber (m.getNoteVelocity noteNumber)
        else
          s2
      else
        s
    if !s1.sostenutoPressed || !sostenutoed then
      if s1.sustainPressed then
        (delaySustainRelease s1 noteNumber (m.getNoteVelocity noteNumber), false)
      else
        (s1, true)
    else
      (s1, false)
  else
    (s, false)

/-- Embedding of `Layer::registerNoteOff`; returns the new layer state
paired with the fire/no-fire decision. -/
def registerNoteOff (r : Region) (m : MidiState) (s : LayerState)
    (noteNumber : ℤ) (velocity : ℚ) (randValue : ℚ) : LayerState × Bool :=
  let velocity := effectiveVelocity r m velocity
  if !(r.triggerOnNote && checkNote r noteNumber velocity && checkRandom r randValue) then
    (s, false)
  else
    let polyAftertouchActive := r.polyAftertouchRange.containsWithEnd (m.getPolyAftertouch noteNumber)
    if !polyAftertouchActive then
      (s, false)
    else
      let res := releaseLogic r m s noteNumber
      if res.2 then
        let s := walkSequence r res.1
        (s, isSwitchedOn s)
      else
        (res.1, false)

/-- Sustain-pedal update at the top of `Layer::registerCC`. -/
def registerCCSustain (r : Region) (s : LayerState) (ccNumber : ℕ) (ccValue : ℚ) : LayerState :=
  if ccNumber = r.sustainCC then
    { s with sustainPressed := r.checkSustain && decide (ccValue ≥ r.sustainThreshold) }
  else
    s

/-- Sostenuto-pedal update of `Layer::registerCC`: snapshot the pressed notes
on a false-to-true transition, clear the queue on a true-to-false
transition, then store the new pedal state. -/
def registerCCSostenuto (r : Region) (m : MidiState) (s : LayerState)
    (ccNumber : ℕ) (ccValue : ℚ) : LayerState :=
  if ccNumber = r.sostenutoCC then
    let newState := r.checkSostenuto && decide (ccValue ≥ r.sostenutoThreshold)
    let s1 := if !s.sostenutoPressed && newState then storeSostenutoNotes r m s else s
    let s2 :=
      if !newState && s1.sostenutoPressed then
        { s1 with delayedSostenutoReleases := [] }
      else
        s1
    { s2 with sostenutoPressed := newState }
  else
    s

/-- Per-controller switch-gate update of `Layer::registerCC`. -/
def registerCCGate (r : Region) (s : LayerState) (ccNumber : ℕ) (ccValue : ℚ) : LayerState :=
  if (r.ccConditions ccNumber).containsWithEnd ccValue then
    { s with ccSwitched := fun n => if n = ccNumber then true else s.ccSwitched n }
  else
    { s with ccSwitched := fun n => if n = ccNumber then false else s.ccSwitched n }

/-- Embedding of `Layer::registerCC`; returns the new layer state paired with
the fire/no-fire decision (the `randValue` argument is unused by the source
as well). -/
def registerCC (r : Region) (m : MidiState) (s : LayerState)
    (ccNumber : ℕ) (ccValue : ℚ) (_randValue : ℚ) : LayerState × Bool :=
  let s := registerCCSustain r s ccNumber ccValue
  let s := registerCCSostenuto r m s ccNumber ccValue
  let s := registerCCGate r s ccNumber ccValue
  if !r.triggerOnCC then
    (s, false)
  else
    match r.ccTriggers ccNumber with
    | Option.some triggerRange =>
      if triggerRange.containsWithEnd ccValue then
        let s := walkSequence r s
        (s, isSwitchedOn s)
      else
        (s, false)
    | Option.none => (s, false)

/-- Embedding of `Layer::registerPitchWheel`. -/
def registerPitchWheel (r : Region) (s : LayerState) (pitch : ℚ) : LayerState :=
  if r.bendRange.containsWithEnd pitch then
    { s with pitchSwitched := true }
  else
    { s with pitchSwitched := false }

/-- Embedding of `Layer::registerAftertouch`. -/
def registerAftertouch (r : Region) (s : LayerState) (aftertouch : ℚ) : LayerState :=
  if r.aftertouchRange.containsWithEnd aftertouch then
    { s with aftertouchSwitched := true }
  else
    { s with aftertouchSwitched := false }

/-- Embedding of `Layer::registerTempo` (the bpm conversion divides 60 by the
seconds-per-quarter value). -/
def registerTempo (r : Region) (s : LayerState) (secondsPerQuarter : ℚ) : LayerState :=
  let bpm := 60 / secondsPerQuarter
  if r.bpmRange.containsWithEnd bpm then
    { s with bpmSwitched := true }
  else
    { s with bpmSwitched := false }

/-- An event delivered to a layer, used to quantify over every sequence of
operations a layer can undergo. -/
inductive Event where
  | noteOn (note : ℤ) (velocity randValue : ℚ)
  | noteOff (note : ℤ) (velocity randValue : ℚ)
  | cc (number : ℕ) (value randValue : ℚ)
  | pitchWheel (pitch : ℚ)
  | aftertouch (value : ℚ)
  | tempo (secondsPerQuarter : ℚ)

/-- Apply one event to a layer's mutable state, given the controller memory
visible at that moment (the returned decision is discarded). -/
def applyEvent (r : Region) (m : MidiState) (s : LayerState) : Event → LayerState
  | Event.noteOn note velocity randValue => (registerNoteOn r m s note velocity randValue).1
  | Event.noteOff note velocity randValue => (registerNoteOff r m s note velocity randValue).1
  | Event.cc number value randValue => (registerCC r m s number value randValue).1
  | Event.pitchWheel pitch => registerPitchWheel r s pitch
  | Event.aftertouch value => registerAftertouch r s value
  | Event.tempo secondsPerQuarter => registerTempo r s secondsPerQuarter

/-- Apply a sequence of events, each with the controller memory current at
its delivery. -/
def applyEvents (r : Region) (steps : List (MidiState × Event)) (s : LayerState) : LayerState :=
  steps.foldl (fun st step => applyEvent r step.1 st step.2) s

/-! Concrete fixtures used by the witness theorems. -/

/-- Example region: wide ranges, a 3-long round robin targeting position 2,
pedal controllers 64 and 66 with threshold 1/2, a CC trigger on controller
64. -/
def exRegion : Region :=
  { keyRange := ⟨0, 127⟩
    velocityRange := ⟨0, 1⟩
    randRange := ⟨0, 1⟩
    polyAftertouchRange := ⟨0, 1⟩
    bendRange := ⟨-1, 1⟩
    aftertouchRange := ⟨0, 1⟩
    bpmRange := ⟨0, 1000⟩
    sequenceLength := 3
    sequencePosition := 2
    trigger := Trigger.attack
    velocityOverride := VelocityOverride.current
    triggerOnNote := true
    triggerOnCC := true
    usesKeySwitches := false
    usesPreviousKeySwitches := false
    usesSequenceSwitches := false
    sustainCC := 64
    sostenutoCC := 66
    checkSustain := true
    checkSostenuto := true
    sustainThreshold := mkRat 1 2
    sostenutoThreshold := mkRat 1 2
    ccConditions := fun _ => ⟨0, 1⟩
    ccTriggers := fun n => if n = 64 then Option.some ⟨0, 1⟩ else Option.none }

/-- Example layer state: every gate satisfied, counter 0, pedals up, queues
empty. -/
def exState : LayerState :=
  { keySwitched := true
    previousKeySwitched := true
    sequenceSwitched := true
    pitchSwitched := true
    bpmSwitched := true
    aftertouchSwitched := true
    ccSwitched := fun _ => true
    sequenceCounter := 0
    sustainPressed := false
    sostenutoPressed := false
    delayedSustainReleases := []
    delayedSostenutoReleases := [] }

/-- Example controller memory: notes 60 and 64 pressed with velocity 1/2,
two active notes, aftertouch and controllers at 0. -/
def exMidi : MidiState :=
  { noteVelocity := fun _ => mkRat 1 2
    notePressed := fun n => decide (n = 60) || decide (n = 64)
    polyAftertouch := fun _ => 0
    activeNotes := 2
    velocityOverride := mkRat 1 2
    ccValue := fun _ => 0
    pitchBend := 0 }

/-! Helper lemmas. -/

theorem walkSequence_counter (r : Region) (s : LayerState) :
    (walkSequence r s).sequenceCounter = s.sequenceCounter + 1 :=
  rfl

theorem walkSequence_iterate_counter (r : Region) (s : LayerState) (n : ℕ) :
    ((walkSequence r)^[n] s).sequenceCounter = s.sequenceCounter + n := by
  induction n with
  | zero => simp
  | succ k ih =>
    rw [Function.iterate_succ_apply', walkSequence_counter, ih]
    omega

theorem mod_shift_iff (L P n : ℕ) (hP1 : 1 ≤ P) (hPL : P ≤ L) (hn : 1 ≤ n) :
    ((n - 1) % L = P - 1) ↔ (n % L = P % L) := by
  have hL : 0 < L := lt_of_lt_of_le hP1 hPL
  have hb : P - 1 < L := by omega
  have hmod : (P - 1) % L = P - 1 := Nat.mod_eq_of_lt hb
  constructor
  · intro h
    have h2 : (n - 1) % L = (P - 1) % L := by rw [hmod]; exact h
    have h3 : Nat.ModEq L (n - 1) (P - 1) := h2
    have h4 : Nat.ModEq L (n - 1 + 1) (P - 1 + 1) := Nat.ModEq.add_right 1 h3
    have h5 : n - 1 + 1 = n := by omega
    have h6 : P - 1 + 1 = P := by omega
    rw [h5, h6] at h4
    exact h4
  · intro h
    have h3 : Nat.ModEq L n P := h
    have h5 : n - 1 + 1 = n := by omega
    have h6 : P - 1 + 1 = P := by omega
    have h4 : Nat.ModEq L (n - 1 + 1) (P - 1 + 1) := by rw [h5, h6]; exact h3
    have h7 : Nat.ModEq L (n - 1) (P - 1) := Nat.ModEq.add_right_cancel' 1 h4
    rw [Nat.ModEq] at h7
    rw [h7, hmod]

/-- C2: with configured sequence length L and 1-indexed target position P and
the sequence counter starting at 0, after the n-th call (1-indexed) to
`walkSequence` the sequence gate is true exactly when n is congruent to P
modulo L, and the counter has been incremented on every call (it equals n
after n calls). -/
theorem walkSequence_round_robin (r : Region) (s : LayerState) (n : ℕ)
    (hP1 : 1 ≤ r.sequencePosition) (hPL : r.sequencePosition ≤ r.sequenceLength)
    (hc : s.sequenceCounter = 0) (hn : 1 ≤ n) :
    ((walkSequence r)^[n] s).sequenceCounter = n ∧
      (((walkSequence r)^[n] s).sequenceSwitched = true ↔
        n % r.sequenceLength = r.sequencePosition % r.sequenceLength) := by
  constructor
  · rw [walkSequence_iterate_counter, hc, Nat.zero_add]
  · have hsplit : n = (n - 1) + 1 := by omega
    rw [hsplit, Function.iterate_succ_apply']
    have hcnt : ((walkSequence r)^[n - 1] s).sequenceCounter = n - 1 := by
      rw [walkSequence_iterate_counter, hc, Nat.zero_add]
    show (walkSequence r ((walkSequence r)^[n - 1] s)).sequenceSwitched = true ↔ _
    rw [walkSequence]
    simp only [hcnt, decide_eq_true_eq]
    rw [← hsplit]
    exact mod_shift_iff r.sequenceLength r.sequencePosition n hP1 hPL hn

/-- Witness for C2 at the example fixture: length 3, position 2, five calls;
the counter reads 5 and the gate is set because 5 mod 3 equals 2 mod 3. -/
theorem walkSequence_round_robin_witness :
    ((walkSequence exRegion)^[5] exState).sequenceCounter = 5 ∧
      (((walkSequence exRegion)^[5] exState).sequenceSwitched = true ↔
        5 % exRegion.sequenceLength = exRegion.sequencePosition % exRegion.sequenceLength) :=
  walkSequence_round_robin exRegion exState 5 (by decide) (by decide) (by decide) (by decide)

/-- Example region whose launch-random range has an upper bound below 1. -/
def exRegionLowRand : Region :=
  { exRegion with randRange := ⟨0, mkRat 1 2⟩ }

/-- C6: for a valid configured launch-random range whose upper bound is
exactly 1.0, `checkRandom 1.0` returns true; for a configured range whose
upper bound is strictly below 1.0, `checkRandom 1.0` returns false. -/
theorem checkRandom_boundary (r : Region) :
    (r.randRange.isValid = true → r.randRange.getEnd = 1 → checkRandom r 1 = true) ∧
      (r.randRange.getEnd < 1 → checkRandom r 1 = false) := by
  constructor
  · intro hv he
    unfold checkRandom
    rw [hv, he]
    simp
  · intro he
    unfold checkRandom SRange.contains
    have h1 : decide ((1 : ℚ) < r.randRange.stop) = false := by
      simp only [decide_eq_false_iff_not, not_lt]
      exact le_of_lt he
    have h2 : decide (r.randRange.getEnd ≥ (1 : ℚ)) = false := by
      simp only [decide_eq_false_iff_not, not_le]
      exact he
    rw [h1, h2]
    simp

/-- Witness for C6: the example random range [0, 1] accepts a random value of
1, and the variant range [0, mkRat 1 2] rejects it. -/
theorem checkRandom_boundary_witness :
    checkRandom exRegion 1 = true ∧ checkRandom exRegionLowRand 1 = false :=
  ⟨(checkRandom_boundary exRegion).1 (by decide) (by decide),
   (checkRandom_boundary exRegionLowRand).2 (by decide)⟩

/-- Boolean test that more than one of the three trigger-category checks of
`Layer::registerNoteOn` passes at once. -/
def multipleTriggerChecks (r : Region) (m : MidiState) : Bool :=
  (attackTrigger r && firstLegatoNote r m)
    || (attackTrigger r && notFirstLegatoNote r m)
    || (firstLegatoNote r m && notFirstLegatoNote r m)

/-- Closed statement that no layer configuration and controller-memory state
make more than one trigger-category check pass at once; this is the
negation of the claim that the OR of the three checks permits several
categories to pass. -/
def multipleTriggerChecksImpossible : Prop :=
  ∀ (r : Region) (m : MidiState), multipleTriggerChecks r m = false

/-- C7 counterexample: contrary to the claim, no layer configuration and no
controller-memory state make more than one of the three trigger-category
checks of `Layer::registerNoteOn` true at the same time, because each check
requires a different value of the single trigger-mode field. -/
theorem multipleTriggerChecks_never : multipleTriggerChecksImpossible := by
  intro r m
  unfold multipleTriggerChecks attackTrigger firstLegatoNote notFirstLegatoNote
  cases r.trigger <;> simp

/-- C7 amended: the three trigger-category checks of `Layer::registerNoteOn`
are mutually exclusive — on every call at most one of on-attack,
first-of-legato-group and non-first-of-legato-group is true, since each
requires a distinct trigger-mode value. -/
theorem triggerChecks_mutually_exclusive (r : Region) (m : MidiState) :
    (attackTrigger r).toNat + (firstLegatoNote r m).toNat
      + (notFirstLegatoNote r m).toNat ≤ 1 := by
  unfold attackTrigger firstLegatoNote notFirstLegatoNote
  cases r.trigger <;> cases hd : decide (m.getActiveNotes = 1)
    <;> cases hg : decide (m.getActiveNotes > 1) <;> simp

/-- C9: passing a controller number outside the supported table to the
controller memory's `controllerChange` is a no-op: the state is unchanged,
so in particular every in-range controller reads the same value as before. -/
theorem controllerChange_out_of_range (m : MidiState) (number : ℕ) (value : ℚ)
    (h : numCCs ≤ number) :
    m.controllerChange number value = m ∧
      (∀ n : ℕ, (m.controllerChange number value).getCCValue n = m.getCCValue n) := by
  have hno : m.controllerChange number value = m := by
    unfold MidiState.controllerChange
    rw [if_neg (by omega)]
  exact ⟨hno, fun n => by rw [hno]⟩

/-- Witness for C9: controller number 600 lies beyond the 512-entry table;
the example memory is unchanged and controller 64 still reads 0. -/
theorem controllerChange_out_of_range_witness :
    exMidi.controllerChange 600 (mkRat 1 2) = exMidi ∧
      (∀ n : ℕ, (exMidi.controllerChange 600 (mkRat 1 2)).getCCValue n = exMidi.getCCValue n) :=
  controllerChange_out_of_range exMidi 600 (mkRat 1 2) (by decide)

/-- C4: when the eligibility, key/velocity, random and poly-aftertouch checks
of `registerNoteOn` pass, the trigger-mode gate qualifies exactly for
on-attack (always), on-first-note-of-legato-group (iff the active-note count
is exactly 1) and on-non-first-note-of-legato-group (iff the count exceeds
1); on qualification the sequence is advanced and the combined gate state
returned, otherwise the call returns false. -/
theorem registerNoteOn_trigger_mode (r : Region) (m : MidiState) (s : LayerState)
    (noteNumber : ℤ) (velocity randValue : ℚ)
    (hpre : (r.triggerOnNote && checkNote r noteNumber (effectiveVelocity r m velocity)
              && checkRandom r randValue) = true)
    (hpoly : r.polyAftertouchRange.containsWithEnd (m.getPolyAftertouch noteNumber) = true) :
    registerNoteOn r m s noteNumber velocity randValue =
      if r.trigger = Trigger.attack ∨ (r.trigger = Trigger.first ∧ m.getActiveNotes = 1)
          ∨ (r.trigger = Trigger.legato ∧ 1 < m.getActiveNotes) then
        (walkSequence r s, isSwitchedOn (walkSequence r s))
      else
        (s, false) := by
  have hb : (attackTrigger r || firstLegatoNote r m || notFirstLegatoNote r m) =
      decide (r.trigger = Trigger.attack ∨ (r.trigger = Trigger.first ∧ m.getActiveNotes = 1)
        ∨ (r.trigger = Trigger.legato ∧ 1 < m.getActiveNotes)) := by
    unfold attackTrigger firstLegatoNote notFirstLegatoNote
    cases hq : decide (r.trigger = Trigger.attack ∨ (r.trigger = Trigger.first ∧ m.getActiveNotes = 1)
        ∨ (r.trigger = Trigger.legato ∧ 1 < m.getActiveNotes)) with
    | false =>
      simp only [decide_eq_false_iff_not, not_or, not_and] at hq
      obtain ⟨h1, h2, h3⟩ := hq
      simp only [Bool.or_eq_false_iff]
      refine ⟨⟨by simp [h1], ?_⟩, ?_⟩
      · by_cases ht : r.trigger = Trigger.first
        · simp [ht, h2 ht]
        · simp [ht]
      · by_cases ht : r.trigger = Trigger.legato
        · have hle := h3 ht
          simp [ht, hle]
        · simp [ht]
    | true =>
      simp only [decide_eq_true_eq] at hq
      rcases hq with h1 | ⟨h1, h2⟩ | ⟨h1, h2⟩
      · simp [h1]
      · simp [h1, h2]
      · simp [h1, h2]
  unfold registerNoteOn
  simp only [hpre, hpoly, Bool.not_true, Bool.false_eq_true, if_false, hb]
  by_cases hq : r.trigger = Trigger.attack ∨ (r.trigger = Trigger.first ∧ m.getActiveNotes = 1)
      ∨ (r.trigger = Trigger.legato ∧ 1 < m.getActiveNotes)
  · simp [hq]
  · simp [hq]

/-- Witness for C4: with the example attack-mode region, memory and state,
a note-on for key 60 with velocity 1 and random value 0 advances the
sequence and reports the combined gate state. -/
theorem registerNoteOn_trigger_mode_witness :
    registerNoteOn exRegion exMidi exState 60 1 0 =
      (if exRegion.trigger = Trigger.attack
          ∨ (exRegion.trigger = Trigger.first ∧ exMidi.getActiveNotes = 1)
          ∨ (exRegion.trigger = Trigger.legato ∧ 1 < exMidi.getActiveNotes) then
        (walkSequence exRegion exState, isSwitchedOn (walkSequence exRegion exState))
      else
        (exState, false)) :=
  registerNoteOn_trigger_mode exRegion exMidi exState 60 1 0 (by decide) (by decide)

/-- C10: whenever `registerNoteOn` rejects because one of the prerequisite
checks fails (note-trigger eligibility, key range, velocity range, random
range, poly-aftertouch range or trigger-mode mismatch), it returns false and
the layer's entire mutable state — gates, counter, pedal flags and both
deferred queues — is returned unchanged. -/
theorem registerNoteOn_reject_frame (r : Region) (m : MidiState) (s : LayerState)
    (noteNumber : ℤ) (velocity randValue : ℚ)
    (h : (r.triggerOnNote && checkNote r noteNumber (effectiveVelocity r m velocity)
            && checkRandom r randValue
          && r.polyAftertouchRange.containsWithEnd (m.getPolyAftertouch noteNumber)
          && (attackTrigger r || firstLegatoNote r m || notFirstLegatoNote r m)) = false) :
    registerNoteOn r m s noteNumber velocity randValue = (s, false) := by
  by_cases hA : (r.triggerOnNote && checkNote r noteNumber (effectiveVelocity r m velocity)
      && checkRandom r randValue) = true
  · by_cases hP : r.polyAftertouchRange.containsWithEnd (m.getPolyAftertouch noteNumber) = true
    · by_cases hT : (attackTrigger r || firstLegatoNote r m || notFirstLegatoNote r m) = true
      · rw [hA, hP, hT] at h
        simp at h
      · simp only [Bool.not_eq_true] at hT
        unfold registerNoteOn
        simp [hA, hP, hT]
    · simp only [Bool.not_eq_true] at hP
      unfold registerNoteOn
      simp [hA, hP]
  · simp only [Bool.not_eq_true] at hA
    unfold registerNoteOn
    simp [hA]

/-- Witness for C10: key 200 lies outside the example key range, so the
note-on is rejected and the state is returned untouched. -/
theorem registerNoteOn_reject_frame_witness :
    registerNoteOn exRegion exMidi exState 200 1 0 = (exState, false) :=
  registerNoteOn_reject_frame exRegion exMidi exState 200 1 0 (by decide)

/-- Shared characterization of the decision returned by `registerCC`. -/
theorem registerCC_snd_iff (r : Region) (m : MidiState) (s : LayerState)
    (ccNumber : ℕ) (ccValue randValue : ℚ) :
    (registerCC r m s ccNumber ccValue randValue).2 = true ↔
      (r.triggerOnCC = true ∧
        ∃ tr : SRange ℚ, r.ccTriggers ccNumber = Option.some tr ∧
          tr.containsWithEnd ccValue = true ∧
          isSwitchedOn (registerCC r m s ccNumber ccValue randValue).1 = true) := by
  unfold registerCC
  by_cases hcc : r.triggerOnCC = true
  · simp only [hcc, Bool.not_true, Bool.false_eq_true, if_false]
    cases htr : r.ccTriggers ccNumber with
    | none => simp
    | some tr =>
      by_cases hin : tr.containsWithEnd ccValue = true
      · simp [hin]
      · simp only [Bool.not_eq_true] at hin
        simp [hin]
  · simp only [Bool.not_eq_true] at hcc
    simp [hcc]

/-- C5: `registerCC` returns true exactly when the layer is eligible for
controller triggering, the controller has a configured trigger range, the
value lies within it (end inclusive), and — after the round-robin advance —
every gate consulted by `isSwitchedOn` (key, previous key, sequence, pitch,
tempo, channel aftertouch and every controller-gate bit) is set. -/
theorem registerCC_fire_characterization (r : Region) (m : MidiState) (s : LayerState)
    (ccNumber : ℕ) (ccValue randValue : ℚ) :
    (registerCC r m s ccNumber ccValue randValue).2 = true ↔
      (r.triggerOnCC = true ∧
        ∃ tr : SRange ℚ, r.ccTriggers ccNumber = Option.some tr ∧
          tr.containsWithEnd ccValue = true ∧
          isSwitchedOn (registerCC r m s ccNumber ccValue randValue).1 = true) :=
  registerCC_snd_iff r m s ccNumber ccValue randValue

/-! Field-preservation lemmas for the pieces of `registerCC` and
`registerNoteOff`. -/

theorem registerCCSustain_sostenuto_fields (r : Region) (s : LayerState)
    (ccNumber : ℕ) (ccValue : ℚ) :
    (registerCCSustain r s ccNumber ccValue).delayedSostenutoReleases =
        s.delayedSostenutoReleases ∧
      (registerCCSustain r s ccNumber ccValue).sostenutoPressed = s.sostenutoPressed := by
  unfold registerCCSustain
  split <;> exact ⟨rfl, rfl⟩

theorem registerCCGate_queue_fields (r : Region) (s : LayerState)
    (ccNumber : ℕ) (ccValue : ℚ) :
    (registerCCGate r s ccNumber ccValue).delayedSostenutoReleases =
        s.delayedSostenutoReleases ∧
      (registerCCGate r s ccNumber ccValue).sostenutoPressed = s.sostenutoPressed := by
  unfold registerCCGate
  split <;> exact ⟨rfl, rfl⟩

theorem walkSequence_queue_fields (r : Region) (s : LayerState) :
    (walkSequence r s).delayedSostenutoReleases = s.delayedSostenutoReleases ∧
      (walkSequence r s).sostenutoPressed = s.sostenutoPressed :=
  ⟨rfl, rfl⟩

/-- The sostenuto-relevant fields of the state returned by `registerCC` are
those produced by its sustain and sostenuto steps (the gate update, the
round-robin advance and the trigger decision do not touch them). -/
theorem registerCC_sostenuto_fields (r : Region) (m : MidiState) (s : LayerState)
    (ccNumber : ℕ) (ccValue randValue : ℚ) :
    (registerCC r m s ccNumber ccValue randValue).1.delayedSostenutoReleases =
        (registerCCSostenuto r m (registerCCSustain r s ccNumber ccValue)
          ccNumber ccValue).delayedSostenutoReleases ∧
      (registerCC r m s ccNumber ccValue randValue).1.sostenutoPressed =
        (registerCCSostenuto r m (registerCCSustain r s ccNumber ccValue)
          ccNumber ccValue).sostenutoPressed := by
  unfold registerCC
  by_cases hcc : r.triggerOnCC = true
  · simp only [hcc, Bool.not_true, Bool.false_eq_true, if_false]
    cases htr : r.ccTriggers ccNumber with
    | none =>
      exact ⟨(registerCCGate_queue_fields r _ ccNumber ccValue).1,
        (registerCCGate_queue_fields r _ ccNumber ccValue).2⟩
    | some tr =>
      by_cases hin : tr.containsWithEnd ccValue = true
      · simp only [hin, if_true]
        exact ⟨(registerCCGate_queue_fields r _ ccNumber ccValue).1,
          (registerCCGate_queue_fields r _ ccNumber ccValue).2⟩
      · simp only [Bool.not_eq_true] at hin
        simp only [hin, Bool.false_eq_true, if_false]
        exact ⟨(registerCCGate_queue_fields r _ ccNumber ccValue).1,
          (registerCCGate_queue_fields r _ ccNumber ccValue).2⟩
  · simp only [Bool.not_eq_true] at hcc
    simp only [hcc, Bool.not_false, if_true]
    exact ⟨(registerCCGate_queue_fields r _ ccNumber ccValue).1,
      (registerCCGate_queue_fields r _ ccNumber ccValue).2⟩

/-- The sostenuto snapshot loop appends exactly the pressed notes (with their
recorded velocities), as long as the queue capacity is not reached. -/
theorem storeLoop_queue (m : MidiState) (l : List ℤ) (st : LayerState)
    (h : st.delayedSostenutoReleases.length + l.length ≤ queueCapacity) :
    (l.foldl
        (fun st note =>
          if m.isNotePressed note then
            delaySostenutoRelease st note (m.getNoteVelocity note)
          else
            st)
        st).delayedSostenutoReleases =
      st.delayedSostenutoReleases
        ++ (l.filter (fun n => m.isNotePressed n)).map (fun n => (n, m.getNoteVelocity n)) := by
  induction l generalizing st with
  | nil => simp
  | cons n rest ih =>
    simp only [List.foldl_cons, List.length_cons] at *
    by_cases hp : m.isNotePressed n = true
    · rw [if_pos hp]
      have hq : (delaySostenutoRelease st n (m.getNoteVelocity n)).delayedSostenutoReleases =
          st.delayedSostenutoReleases ++ [(n, m.getNoteVelocity n)] := by
        unfold delaySostenutoRelease
        rw [if_neg (by omega)]
      rw [ih (delaySostenutoRelease st n (m.getNoteVelocity n)) (by rw [hq]; simp; omega), hq]
      simp [hp, List.filter_cons, List.append_assoc]
    · rw [if_neg hp]
      rw [ih st (by omega)]
      simp only [Bool.not_eq_true] at hp
      simp [hp, List.filter_cons]

/-- The sostenuto snapshot loop does not modify the other fields of the
layer state. -/
theorem storeLoop_other_fields (m : MidiState) (l : List ℤ) (st : LayerState) :
    (l.foldl
        (fun st note =>
          if m.isNotePressed note then
            delaySostenutoRelease st note (m.getNoteVelocity note)
          else
            st)
        st).sostenutoPressed = st.sostenutoPressed := by
  induction l generalizing st with
  | nil => rfl
  | cons n rest ih =>
    simp only [List.foldl_cons]
    by_cases hp : m.isNotePressed n = true
    · rw [if_pos hp, ih]
      unfold delaySostenutoRelease
      split <;> rfl
    · rw [if_neg hp, ih]

/-- C3: sending the configured sostenuto controller to `registerCC` has the
transition semantics the spec describes.  On a false-to-true pedal
transition the sostenuto-deferred queue is populated with exactly the
currently pressed notes of the key range, each with its last recorded
velocity; on a true-to-false transition the queue is cleared outright and
the call can only fire through the ordinary CC-trigger logic, never because
of the clearing. -/
theorem registerCC_sostenuto_transitions (r : Region) (m : MidiState) (s : LayerState)
    (ccValue randValue : ℚ)
    (hlen : (keyRangeNotes r).length ≤ queueCapacity) :
    (s.sostenutoPressed = false →
      (r.checkSostenuto && decide (ccValue ≥ r.sostenutoThreshold)) = true →
      s.delayedSostenutoReleases = [] →
      (registerCC r m s r.sostenutoCC ccValue randValue).1.delayedSostenutoReleases =
          ((keyRangeNotes r).filter (fun n => m.isNotePressed n)).map
            (fun n => (n, m.getNoteVelocity n)) ∧
        (registerCC r m s r.sostenutoCC ccValue randValue).1.sostenutoPressed = true) ∧
    (s.sostenutoPressed = true →
      (r.checkSostenuto && decide (ccValue ≥ r.sostenutoThreshold)) = false →
      (registerCC r m s r.sostenutoCC ccValue randValue).1.delayedSostenutoReleases = [] ∧
        (registerCC r m s r.sostenutoCC ccValue randValue).1.sostenutoPressed = false ∧
        ((registerCC r m s r.sostenutoCC ccValue randValue).2 = true →
          r.triggerOnCC = true ∧
            ∃ tr : SRange ℚ, r.ccTriggers r.sostenutoCC = Option.some tr ∧
              tr.containsWithEnd ccValue = true)) := by
  obtain ⟨hq, hf⟩ := registerCC_sostenuto_fields r m s r.sostenutoCC ccValue randValue
  obtain ⟨hsq, hsf⟩ := registerCCSustain_sostenuto_fields r s r.sostenutoCC ccValue
  constructor
  · intro hold hnew hempty
    unfold registerCCSostenuto at hq hf
    rw [if_pos rfl] at hq hf
    simp only [hnew, hsf, hold, Bool.not_false, Bool.and_true, if_true, Bool.and_false,
      Bool.not_true, Bool.false_and, Bool.false_eq_true, if_false] at hq hf
    constructor
    · rw [hq]
      unfold storeSostenutoNotes
      rw [storeLoop_queue m (keyRangeNotes r) _ (by rw [hsq, hempty]; simpa using hlen), hsq, hempty]
      simp
    · rw [hf]
  · intro hold hnew
    unfold registerCCSostenuto at hq hf
    rw [if_pos rfl] at hq hf
    simp only [hnew, hsf, hold, Bool.and_false, Bool.false_eq_true, if_false, Bool.not_false,
      Bool.true_and, if_true] at hq hf
    refine ⟨by rw [hq], by rw [hf], ?_⟩
    intro hfire
    have hchar := (registerCC_snd_iff r m s r.sostenutoCC ccValue randValue).mp hfire
    obtain ⟨h1, tr, h2, h3, _⟩ := hchar
    exact ⟨h1, tr, h2, h3⟩

set_option maxRecDepth 10000 in
/-- Witness for C3: pressing the example sostenuto controller (66) with
value 1 while notes 60 and 64 are held snapshots exactly those notes with
velocity one half. -/
theorem registerCC_sostenuto_transitions_witness :
    (registerCC exRegion exMidi exState exRegion.sostenutoCC 1 0).1.delayedSostenutoReleases =
        ((keyRangeNotes exRegion).filter (fun n => exMidi.isNotePressed n)).map
          (fun n => (n, exMidi.getNoteVelocity n)) ∧
      (registerCC exRegion exMidi exState exRegion.sostenutoCC 1 0).1.sostenutoPressed = true :=
  (registerCC_sostenuto_transitions exRegion exMidi exState 1 0 (by decide)).1
    (by decide) (by decide) (by decide)

/-! Boundedness of the two deferred-release queues. -/

/-- Both deferred-release queues are within the fixed capacity. -/
def queuesBounded (s : LayerState) : Prop :=
  s.delayedSustainReleases.length ≤ queueCapacity ∧
    s.delayedSostenutoReleases.length ≤ queueCapacity

theorem swapAndPopFirst_length_le {α : Type} (l : List α) (p : α → Bool) :
    (swapAndPopFirst l p).length ≤ l.length := by
  induction l with
  | nil => simp [swapAndPopFirst]
  | cons x xs ih =>
    unfold swapAndPopFirst
    by_cases hp : p x = true
    · rw [if_pos hp]
      cases hlast : xs.getLast? with
      | none => simp
      | some last =>
        simp only [List.length_cons]
        have := List.length_dropLast xs
        simp only [List.length_cons, this]
        omega
    · rw [if_neg hp]
      simp only [List.length_cons]
      omega

theorem delaySustainRelease_bounded (s : LayerState) (n : ℤ) (v : ℚ)
    (h : queuesBounded s) : queuesBounded (delaySustainRelease s n v) := by
  obtain ⟨h1, h2⟩ := h
  unfold delaySustainRelease
  by_cases hc : s.delayedSustainReleases.length = queueCapacity
  · rw [if_pos hc]; exact ⟨h1, h2⟩
  · rw [if_neg hc]
    refine ⟨?_, h2⟩
    simp only [List.length_append, List.length_cons, List.length_nil]
    omega

theorem delaySostenutoRelease_bounded (s : LayerState) (n : ℤ) (v : ℚ)
    (h : queuesBounded s) : queuesBounded (delaySostenutoRelease s n v) := by
  obtain ⟨h1, h2⟩ := h
  unfold delaySostenutoRelease
  by_cases hc : s.delayedSostenutoReleases.length = queueCapacity
  · rw [if_pos hc]; exact ⟨h1, h2⟩
  · rw [if_neg hc]
    refine ⟨h1, ?_⟩
    simp only [List.length_append, List.length_cons, List.length_nil]
    omega

theorem removeFromSostenutoReleases_bounded (s : LayerState) (n : ℤ)
    (h : queuesBounded s) : queuesBounded (removeFromSostenutoReleases s n) := by
  obtain ⟨h1, h2⟩ := h
  refine ⟨h1, ?_⟩
  unfold removeFromSostenutoReleases
  exact le_trans (swapAndPopFirst_length_le _ _) h2

theorem storeSostenutoNotes_bounded (r : Region) (m : MidiState) (s : LayerState)
    (h : queuesBounded s) : queuesBounded (storeSostenutoNotes r m s) := by
  unfold storeSostenutoNotes
  induction keyRangeNotes r generalizing s with
  | nil => exact h
  | cons n rest ih =>
    simp only [List.foldl_cons]
    by_cases hp : m.isNotePressed n = true
    · rw [if_pos hp]
      exact ih _ (delaySostenutoRelease_bounded s n (m.getNoteVelocity n) h)
    · rw [if_neg hp]
      exact ih _ h

theorem walkSequence_bounded (r : Region) (s : LayerState)
    (h : queuesBounded s) : queuesBounded (walkSequence r s) :=
  h

theorem releaseLogic_bounded (r : Region) (m : MidiState) (s : LayerState) (n : ℤ)
    (h : queuesBounded s) : queuesBounded (releaseLogic r m s n).1 := by
  have hrem := removeFromSostenutoReleases_bounded s n h
  unfold releaseLogic
  dsimp only
  repeat' split
  all_goals
    first
      | exact h
      | exact hrem
      | exact delaySustainRelease_bounded _ n (m.getNoteVelocity n) h
      | exact delaySustainRelease_bounded _ n (m.getNoteVelocity n) hrem
      | exact delaySustainRelease_bounded _ n (m.getNoteVelocity n)
          (delaySustainRelease_bounded _ n (m.getNoteVelocity n) hrem)

theorem registerNoteOn_bounded (r : Region) (m : MidiState) (s : LayerState)
    (n : ℤ) (v rand : ℚ) (h : queuesBounded s) :
    queuesBounded (registerNoteOn r m s n v rand).1 := by
  unfold registerNoteOn
  dsimp only
  repeat' split
  all_goals exact h

theorem registerNoteOff_bounded (r : Region) (m : MidiState) (s : LayerState)
    (n : ℤ) (v rand : ℚ) (h : queuesBounded s) :
    queuesBounded (registerNoteOff r m s n v rand).1 := by
  have hrel := releaseLogic_bounded r m s n h
  unfold registerNoteOff
  dsimp only
  repeat' split
  all_goals first | exact h | exact hrel

theorem registerCCSustain_bounded (r : Region) (s : LayerState) (cc : ℕ) (v : ℚ)
    (h : queuesBounded s) : queuesBounded (registerCCSustain r s cc v) := by
  unfold registerCCSustain
  split
  · exact h
  · exact h

theorem registerCCSostenuto_bounded (r : Region) (m : MidiState) (s : LayerState)
    (cc : ℕ) (v : ℚ) (h : queuesBounded s) :
    queuesBounded (registerCCSostenuto r m s cc v) := by
  have hst := storeSostenutoNotes_bounded r m s h
  unfold registerCCSostenuto
  dsimp only
  repeat' split
  all_goals
    first
      | exact h
      | exact hst
      | exact ⟨hst.1, Nat.zero_le _⟩
      | exact ⟨h.1, Nat.zero_le _⟩

theorem registerCCGate_bounded (r : Region) (s : LayerState) (cc : ℕ) (v : ℚ)
    (h : queuesBounded s) : queuesBounded (registerCCGate r s cc v) := by
  unfold registerCCGate
  split
  · exact h
  · exact h

theorem registerCC_bounded (r : Region) (m : MidiState) (s : LayerState)
    (cc : ℕ) (v rand : ℚ) (h : queuesBounded s) :
    queuesBounded (registerCC r m s cc v rand).1 := by
  have h3 : queuesBounded (registerCCGate r
      (registerCCSostenuto r m (registerCCSustain r s cc v) cc v) cc v) :=
    registerCCGate_bounded r _ cc v
      (registerCCSostenuto_bounded r m _ cc v (registerCCSustain_bounded r s cc v h))
  unfold registerCC
  dsimp only
  repeat' split
  all_goals exact h3

theorem registerPitchWheel_bounded (r : Region) (s : LayerState) (p : ℚ)
    (h : queuesBounded s) : queuesBounded (registerPitchWheel r s p) := by
  unfold registerPitchWheel
  split
  · exact h
  · exact h

theorem registerAftertouch_bounded (r : Region) (s : LayerState) (v : ℚ)
    (h : queuesBounded s) : queuesBounded (registerAftertouch r s v) := by
  unfold registerAftertouch
  split
  · exact h
  · exact h

theorem registerTempo_bounded (r : Region) (s : LayerState) (spq : ℚ)
    (h : queuesBounded s) : queuesBounded (registerTempo r s spq) := by
  unfold registerTempo
  dsimp only
  split
  · exact h
  · exact h

theorem applyEvent_bounded (r : Region) (m : MidiState) (s : LayerState) (e : Event)
    (h : queuesBounded s) : queuesBounded (applyEvent r m s e) := by
  cases e with
  | noteOn note velocity randValue => exact registerNoteOn_bounded r m s note velocity randValue h
  | noteOff note velocity randValue => exact registerNoteOff_bounded r m s note velocity randValue h
  | cc number value randValue => exact registerCC_bounded r m s number value randValue h
  | pitchWheel pitch => exact registerPitchWheel_bounded r s pitch h
  | aftertouch value => exact registerAftertouch_bounded r s value h
  | tempo secondsPerQuarter => exact registerTempo_bounded r s secondsPerQuarter h

theorem applyEvents_bounded (r : Region) (steps : List (MidiState × Event)) (s : LayerState)
    (h : queuesBounded s) : queuesBounded (applyEvents r steps s) := by
  unfold applyEvents
  induction steps generalizing s with
  | nil => exact h
  | cons step rest ih =>
    simp only [List.foldl_cons]
    exact ih _ (applyEvent_bounded r step.1 s step.2 h)

/-- C8: inserting into a deferred-release queue that is already at capacity
is a silent no-op leaving the state unchanged, and consequently, along every
sequence of delivered events from a within-capacity state, the size of each
deferred-release queue never exceeds the fixed capacity. -/
theorem deferred_queues_capacity (r : Region) (sFull s : LayerState) (n : ℤ) (v : ℚ)
    (steps : List (MidiState × Event))
    (hfull1 : sFull.delayedSustainReleases.length = queueCapacity)
    (hfull2 : sFull.delayedSostenutoReleases.length = queueCapacity)
    (h1 : s.delayedSustainReleases.length ≤ queueCapacity)
    (h2 : s.delayedSostenutoReleases.length ≤ queueCapacity) :
    delaySustainRelease sFull n v = sFull ∧
      delaySostenutoRelease sFull n v = sFull ∧
      (applyEvents r steps s).delayedSustainReleases.length ≤ queueCapacity ∧
      (applyEvents r steps s).delayedSostenutoReleases.length ≤ queueCapacity := by
  have hb := applyEvents_bounded r steps s ⟨h1, h2⟩
  refine ⟨?_, ?_, hb.1, hb.2⟩
  · unfold delaySustainRelease
    rw [if_pos hfull1]
  · unfold delaySostenutoRelease
    rw [if_pos hfull2]

/-! Development for the pedal-chaining behaviour of `registerNoteOff`. -/

theorem swapAndPopFirst_countP {α : Type} (l : List α) (p : α → Bool)
    (h : 1 ≤ l.countP p) :
    (swapAndPopFirst l p).countP p = l.countP p - 1 := by
  induction l with
  | nil => simp at h
  | cons x xs ih =>
    unfold swapAndPopFirst
    by_cases hp : p x = true
    · rw [if_pos hp]
      cases hlast : xs.getLast? with
      | none =>
        have hxs : xs = [] := by
          cases xs with
          | nil => rfl
          | cons y ys => simp [List.getLast?_concat] at hlast
        subst hxs
        simp [List.countP_cons, hp]
      | some last =>
        have hdecomp : xs.dropLast ++ [last] = xs :=
          List.dropLast_append_getLast? last (by rw [hlast]; rfl)
        have hc : (last :: xs.dropLast).countP p = xs.countP p := by
          conv_rhs => rw [← hdecomp]
          rw [List.countP_cons, List.countP_append, List.countP_cons, List.countP_nil]
          omega
        rw [hc, List.countP_cons, hp]
        simp
    · rw [if_neg hp]
      have hpx : p x = false := by
        cases hpx2 : p x with
        | false => rfl
        | true => exact absurd hpx2 hp
      have hxs : 1 ≤ xs.countP p := by
        rw [List.countP_cons, hpx] at h
        simpa using h
      rw [List.countP_cons, hpx, List.countP_cons, hpx, ih hxs]
      simp

theorem delaySustainRelease_sostQueue (s : LayerState) (n : ℤ) (v : ℚ) :
    (delaySustainRelease s n v).delayedSostenutoReleases = s.delayedSostenutoReleases := by
  unfold delaySustainRelease
  split <;> rfl

theorem delaySustainRelease_sostPressed (s : LayerState) (n : ℤ) (v : ℚ) :
    (delaySustainRelease s n v).sostenutoPressed = s.sostenutoPressed := by
  unfold delaySustainRelease
  split <;> rfl

theorem delaySustainRelease_susPressed (s : LayerState) (n : ℤ) (v : ℚ) :
    (delaySustainRelease s n v).sustainPressed = s.sustainPressed := by
  unfold delaySustainRelease
  split <;> rfl

theorem delaySustainRelease_counter (s : LayerState) (n : ℤ) (v : ℚ) :
    (delaySustainRelease s n v).sequenceCounter = s.sequenceCounter := by
  unfold delaySustainRelease
  split <;> rfl

theorem delaySustainRelease_seqSwitched (s : LayerState) (n : ℤ) (v : ℚ) :
    (delaySustainRelease s n v).sequenceSwitched = s.sequenceSwitched := by
  unfold delaySustainRelease
  split <;> rfl

theorem delaySustainRelease_queue_append (s : LayerState) (n : ℤ) (v : ℚ)
    (h : s.delayedSustainReleases.length ≠ queueCapacity) :
    (delaySustainRelease s n v).delayedSustainReleases =
      s.delayedSustainReleases ++ [(n, v)] := by
  unfold delaySustainRelease
  rw [if_neg h]

/-- C1 amended: for an on-release-with-pedal-awareness layer, when
`registerNoteOff` passes the prerequisite checks and the note is in the
sostenuto-deferred queue while the sostenuto pedal is up, the note is
removed from the sostenuto-deferred queue and, if the sustain pedal is
down, the code re-inserts the note (with the controller memory's last
recorded velocity) into the sustain-deferred queue TWICE — once in the
sostenuto-removal branch and once more in the general sustain branch, whose
guard also holds — returning false without advancing the round-robin
sequence (capacity permitting). -/
theorem registerNoteOff_sostenuto_double_insert (r : Region) (m : MidiState) (s : LayerState)
    (noteNumber : ℤ) (velocity randValue : ℚ)
    (hpre : (r.triggerOnNote && checkNote r noteNumber (effectiveVelocity r m velocity)
              && checkRandom r randValue) = true)
    (hpoly : r.polyAftertouchRange.containsWithEnd (m.getPolyAftertouch noteNumber) = true)
    (htrig : r.trigger = Trigger.release)
    (hsost : isNoteSostenutoed s noteNumber = true)
    (hflag : s.sostenutoPressed = false)
    (hsus : s.sustainPressed = true)
    (hcount : s.delayedSostenutoReleases.countP (fun q => decide (q.1 = noteNumber)) = 1)
    (hcap : s.delayedSustainReleases.length + 2 ≤ queueCapacity) :
    (registerNoteOff r m s noteNumber velocity randValue).1.delayedSostenutoReleases.countP
        (fun q => decide (q.1 = noteNumber)) = 0 ∧
      (registerNoteOff r m s noteNumber velocity randValue).1.delayedSustainReleases =
        s.delayedSustainReleases ++ [(noteNumber, m.getNoteVelocity noteNumber),
          (noteNumber, m.getNoteVelocity noteNumber)] ∧
      (registerNoteOff r m s noteNumber velocity randValue).2 = false ∧
      (registerNoteOff r m s noteNumber velocity randValue).1.sequenceCounter =
        s.sequenceCounter ∧
      (registerNoteOff r m s noteNumber velocity randValue).1.sequenceSwitched =
        s.sequenceSwitched := by
  have hsus1 : (removeFromSostenutoReleases s noteNumber).sustainPressed = true := hsus
  have hsost1 : (delaySustainRelease (removeFromSostenutoReleases s noteNumber) noteNumber
      (m.getNoteVelocity noteNumber)).sostenutoPressed = false := by
    rw [delaySustainRelease_sostPressed]
    exact hflag
  have hsus2 : (delaySustainRelease (removeFromSostenutoReleases s noteNumber) noteNumber
      (m.getNoteVelocity noteNumber)).sustainPressed = true := by
    rw [delaySustainRelease_susPressed]
    exact hsus
  have hrel : releaseLogic r m s noteNumber =
      (delaySustainRelease
        (delaySustainRelease (removeFromSostenutoReleases s noteNumber) noteNumber
          (m.getNoteVelocity noteNumber))
        noteNumber (m.getNoteVelocity noteNumber), false) := by
    unfold releaseLogic
    rw [htrig]
    simp only [hsost, hflag]
    simp [hsus1, hsost1, hsus2]
  have hmain : registerNoteOff r m s noteNumber velocity randValue =
      (delaySustainRelease
        (delaySustainRelease (removeFromSostenutoReleases s noteNumber) noteNumber
          (m.getNoteVelocity noteNumber))
        noteNumber (m.getNoteVelocity noteNumber), false) := by
    unfold registerNoteOff
    simp only [hpre, hpoly, hrel, Bool.not_true, Bool.false_eq_true, if_false]
  rw [hmain]
  have hq1 : (delaySustainRelease (removeFromSostenutoReleases s noteNumber) noteNumber
      (m.getNoteVelocity noteNumber)).delayedSustainReleases =
      s.delayedSustainReleases ++ [(noteNumber, m.getNoteVelocity noteNumber)] :=
    delaySustainRelease_queue_append _ _ _ (by
      show s.delayedSustainReleases.length ≠ queueCapacity
      omega)
  have hq2 : (delaySustainRelease
      (delaySustainRelease (removeFromSostenutoReleases s noteNumber) noteNumber
        (m.getNoteVelocity noteNumber))
      noteNumber (m.getNoteVelocity noteNumber)).delayedSustainReleases =
      s.delayedSustainReleases ++ [(noteNumber, m.getNoteVelocity noteNumber),
        (noteNumber, m.getNoteVelocity noteNumber)] := by
    rw [delaySustainRelease_queue_append _ _ _ (by
      rw [hq1]
      simp only [List.length_append, List.length_cons, List.length_nil]
      omega), hq1, List.append_assoc]
    rfl
  refine ⟨?_, hq2, rfl, ?_, ?_⟩
  · rw [delaySustainRelease_sostQueue, delaySustainRelease_sostQueue]
    show (swapAndPopFirst s.delayedSostenutoReleases
      (fun q => decide (q.1 = noteNumber))).countP (fun q => decide (q.1 = noteNumber)) = 0
    rw [swapAndPopFirst_countP _ _ (by omega), hcount]
  · rw [delaySustainRelease_counter, delaySustainRelease_counter]
    rfl
  · rw [delaySustainRelease_seqSwitched, delaySustainRelease_seqSwitched]
    rfl

/-- Example region in on-release-with-pedal-awareness mode. -/
def exRegionRelease : Region :=
  { exRegion with trigger := Trigger.release }

/-- Example layer state with the sustain pedal down and note 60 pending in
the sostenuto-deferred queue while the sostenuto pedal is up. -/
def c1State : LayerState :=
  { exState with
    sustainPressed := true
    delayedSostenutoReleases := [(60, mkRat 1 2)] }

/-- C1 counterexample: at this concrete input every hypothesis of the claim
holds — release-mode layer, prerequisite checks pass, note 60 is
sostenuto-deferred, sostenuto pedal up, sustain pedal down — yet the call
leaves TWO entries for note 60 in the sustain-deferred queue, not exactly
one as claimed. -/
theorem registerNoteOff_sostenuto_double_insert_counterexample :
    exRegionRelease.trigger = Trigger.release ∧
      isNoteSostenutoed c1State 60 = true ∧
      c1State.sostenutoPressed = false ∧
      c1State.sustainPressed = true ∧
      (registerNoteOff exRegionRelease exMidi c1State 60 1 0).1.delayedSustainReleases.countP
          (fun q => decide (q.1 = 60)) = 2 ∧
      (registerNoteOff exRegionRelease exMidi c1State 60 1 0).2 = false := by
  decide

/-- Witness for the amended C1 at the same concrete input: note 60 leaves
the sostenuto queue, two entries enter the sustain queue, the call returns
false and the sequence counter does not move. -/
theorem registerNoteOff_sostenuto_double_insert_witness :
    (registerNoteOff exRegionRelease exMidi c1State 60 1 0).1.delayedSostenutoReleases.countP
        (fun q => decide (q.1 = 60)) = 0 ∧
      (registerNoteOff exRegionRelease exMidi c1State 60 1 0).1.delayedSustainReleases =
        c1State.delayedSustainReleases ++ [(60, exMidi.getNoteVelocity 60),
          (60, exMidi.getNoteVelocity 60)] ∧
      (registerNoteOff exRegionRelease exMidi c1State 60 1 0).2 = false ∧
      (registerNoteOff exRegionRelease exMidi c1State 60 1 0).1.sequenceCounter =
        c1State.sequenceCounter ∧
      (registerNoteOff exRegionRelease exMidi c1State 60 1 0).1.sequenceSwitched =
        c1State.sequenceSwitched :=
  registerNoteOff_sostenuto_double_insert exRegionRelease exMidi c1State 60 1 0
    (by decide) (by decide) (by decide) (by decide) (by decide) (by decide) (by decide) (by decide)

/-- Example layer state whose deferred-release queues are exactly at
capacity. -/
def exStateFull : LayerState :=
  { exState with
    delayedSustainReleases := List.replicate queueCapacity ((60 : ℤ), (1 : ℚ))
    delayedSostenutoReleases := List.replicate queueCapacity ((60 : ℤ), (1 : ℚ)) }

set_option maxRecDepth 10000 in
/-- Witness for C8: at the full example state further insertions are
dropped, and one delivered note-off leaves the example state's queues within
capacity. -/
theorem deferred_queues_capacity_witness :
    delaySustainRelease exStateFull 61 1 = exStateFull ∧
      delaySostenutoRelease exStateFull 61 1 = exStateFull ∧
      (applyEvents exRegion [(exMidi, Event.noteOff 60 1 0)] exState).delayedSustainReleases.length
          ≤ queueCapacity ∧
      (applyEvents exRegion [(exMidi, Event.noteOff 60 1 0)] exState).delayedSostenutoReleases.length
          ≤ queueCapacity :=
  deferred_queues_capacity exRegion exStateFull exState 61 1 [(exMidi, Event.noteOff 60 1 0)]
    (by decide) (by decide) (by decide) (by decide)

end Sfizz
